import Mathlib

/-!
Verification development for the book-library-tool repository.

The repository's core domain (fee policy, wallet ledger, reservation state
machine) is declared through its OpenAPI document, route tables, schemas and
configuration under `src/`, while the handler implementations themselves are
not part of the provided sources; those operations are modelled from the
specification text, as marked on each definition.  The catalog search handler
(`catalogHandler.searchCatalog`) and the OpenAPI post-processing helper
(`removeIdProperties`) are present in the sources and are embedded from them
directly.

Monetary amounts and timestamps are modelled as rationals (`ℚ`); timestamps
are measured in days so that the configured loan period of
`BOOK_RETURN_DUE_DATE_DAYS` days is an additive constant.
-/

namespace BookLibrary

/-- Modelled from the spec: `LATE_FEE_PER_DAY` configuration value, 0.2 in
`src/.env.local`. -/
def LATE_FEE_PER_DAY : ℚ := 1 / 5

/-- Modelled from the spec: `BOOK_RESERVATION_FEE` configuration value, 3 in
`src/.env.local`. -/
def BOOK_RESERVATION_FEE : ℚ := 3

/-- Modelled from the spec: `BOOK_RETURN_DUE_DATE_DAYS` configuration value,
5 in `src/.env.local`. -/
def BOOK_RETURN_DUE_DATE_DAYS : ℚ := 5

/-- Modelled from the spec: maximum simultaneous active reservations per user
(`MAX_ACTIVE_RESERVATIONS`, default 3; the OpenAPI error example reads "User
cannot borrow more than 3 books at the same time"). -/
def MAX_ACTIVE_RESERVATIONS : Nat := 3

/-- Modelled from the spec: `reservationFee()` — the constant fee charged at
reservation creation (default 3.00). -/
def reservationFee : ℚ := BOOK_RESERVATION_FEE

/-- Modelled from the spec: `computeDueDate(reservedAt)` —
`reservedAt + BOOK_RETURN_DUE_DATE_DAYS` (timestamps in days). -/
def computeDueDate (reservedAt : ℚ) : ℚ :=
  reservedAt + BOOK_RETURN_DUE_DATE_DAYS

/-- Modelled from the spec: `computeLateFee(daysLate, retailPrice)` — `0` if
`daysLate ≤ 0`, else `min(daysLate * LATE_FEE_PER_DAY, retailPrice)`. -/
def computeLateFee (daysLate : Int) (retailPrice : ℚ) : ℚ :=
  if daysLate ≤ 0 then 0 else min (daysLate * LATE_FEE_PER_DAY) retailPrice

/-- Modelled from the spec: `isBuyOut(accumulatedLateFee, retailPrice)` — true
iff the accumulated late fee reaches or exceeds the retail price. -/
def isBuyOut (accumulatedLateFee retailPrice : ℚ) : Bool :=
  retailPrice ≤ accumulatedLateFee

/-- A JavaScript number as observed by the handlers: either a finite value,
one of the two infinities, or NaN.  Finite values are modelled as rationals. -/
inductive JsNumber where
  | nan : JsNumber
  | posInf : JsNumber
  | negInf : JsNumber
  | val (q : ℚ) : JsNumber
deriving DecidableEq

/-- Whether a `JsNumber` is a finite number (`Number.isFinite`). -/
def JsNumber.isFinite : JsNumber → Bool
  | .val _ => true
  | _ => false

/-- Typed failure results of the domain operations (spec §7). -/
inductive DomainError where
  | NotFound : DomainError
  | InsufficientFunds : DomainError
  | InvalidAmount : DomainError
  | BookUnavailable : DomainError
  | TooManyActiveReservations : DomainError
  | InsufficientBalance : DomainError
  | AlreadyFinalized : DomainError
deriving DecidableEq

/-- Modelled from the spec: `adjustBalance(userId, delta)` of the Wallet
Ledger, acting on a single wallet balance.  Fails with `InvalidAmount` if
`delta` is not a finite number; fails with `InsufficientFunds` if `delta < 0`
and `balance + delta < 0`; otherwise returns the post-adjustment balance. -/
def adjustBalance (balance : ℚ) (delta : JsNumber) : Except DomainError ℚ :=
  match delta with
  | .val d =>
    if d < 0 ∧ balance + d < 0 then .error .InsufficientFunds
    else .ok (balance + d)
  | _ => .error .InvalidAmount

/-- Reservation lifecycle states, embedded from the `ReservationStatus` enum
of the sources (`reserved`, `borrowed`, `returned`, `late`, `bought`). -/
inductive ReservationStatus where
  | reserved : ReservationStatus
  | borrowed : ReservationStatus
  | returned : ReservationStatus
  | late : ReservationStatus
  | bought : ReservationStatus
deriving DecidableEq

/-- Active reservation states: RESERVED or BORROWED (spec glossary). -/
def ReservationStatus.isActive : ReservationStatus → Bool
  | .reserved => true
  | .borrowed => true
  | _ => false

/-- Terminal reservation states: RETURNED, LATE, BOUGHT (spec §4.3 treats
LATE as terminal for this design). -/
def ReservationStatus.isTerminal : ReservationStatus → Bool
  | .returned => true
  | .late => true
  | .bought => true
  | _ => false

/-- A catalog book as far as the reservation core needs it: identity and
retail price (spec §3, `findBook(referenceId) → {price, exists}`). -/
structure Book where
  id : String
  price : ℚ
deriving DecidableEq

/-- A reservation record (spec §3). -/
structure Reservation where
  reservationId : String
  userId : String
  referenceId : String
  reservedAt : ℚ
  dueDate : ℚ
  status : ReservationStatus
  feeCharged : Option ℚ
deriving DecidableEq

/-- The persistent state the core operates on: catalog books, reservation
records and per-user wallet balances. -/
structure State where
  books : List Book
  reservations : List Reservation
  wallets : List (String × ℚ)
deriving DecidableEq

/-- Modelled from the spec: catalog lookup `findBook(referenceId)`. -/
def findBook (st : State) (referenceId : String) : Option Book :=
  st.books.find? (fun b => b.id = referenceId)

/-- Modelled from the spec: wallet lookup `findWallet(userId)`, returning the
balance. -/
def findWallet (st : State) (userId : String) : Option ℚ :=
  (st.wallets.find? (fun w => w.1 = userId)).map (fun w => w.2)

/-- Persist a new balance for a user's wallet (the entry is updated in
place; users without a wallet are untouched). -/
def setWallet (st : State) (userId : String) (b : ℚ) : State :=
  { st with
    wallets := st.wallets.map (fun w => if w.1 = userId then (w.1, b) else w) }

/-- The user's reservations currently in an active state (RESERVED or
BORROWED) among a list of records. -/
def activeReservations (rs : List Reservation) (userId : String) :
    List Reservation :=
  rs.filter (fun r => r.userId = userId && r.status.isActive)

/-- Number of the user's reservations currently in an active state
(RESERVED or BORROWED). -/
def activeCount (st : State) (userId : String) : Nat :=
  (activeReservations st.reservations userId).length

/-- Update the status of the reservation with the given id. -/
def setStatus (st : State) (reservationId : String)
    (s : ReservationStatus) : State :=
  { st with
    reservations := st.reservations.map
      (fun r => if r.reservationId = reservationId
                then { r with status := s } else r) }

/-- Modelled from the spec: `createReservation(userId, referenceId)` (§4.3).
Preconditions checked in order: the book reference exists
(`BookUnavailable`), the user has fewer than `MAX_ACTIVE_RESERVATIONS`
active reservations (`TooManyActiveReservations`), the wallet exists and
covers `reservationFee()` (`InsufficientBalance`).  On success the wallet is
debited by `reservationFee()` and a RESERVED reservation is created with
`reservedAt = now`, `dueDate = computeDueDate(now)` and
`feeCharged = reservationFee()`. -/
def createReservation (now : ℚ) (newId userId referenceId : String)
    (st : State) : Except DomainError (Reservation × State) :=
  match findBook st referenceId with
  | none => .error .BookUnavailable
  | some _ =>
    if MAX_ACTIVE_RESERVATIONS ≤ activeCount st userId then
      .error .TooManyActiveReservations
    else
      match findWallet st userId with
      | none => .error .InsufficientBalance
      | some b =>
        if b < reservationFee then .error .InsufficientBalance
        else
          let r : Reservation :=
            { reservationId := newId
              userId := userId
              referenceId := referenceId
              reservedAt := now
              dueDate := computeDueDate now
              status := .reserved
              feeCharged := some reservationFee }
          let st1 := setWallet st userId (b - reservationFee)
          .ok (r, { st1 with reservations := r :: st1.reservations })

/-- Modelled from the spec: `daysLate = max(0, floor((now - dueDate) in
days))` (§4.3, timestamps in days). -/
def daysLateOf (now dueDate : ℚ) : Int :=
  max 0 ⌊now - dueDate⌋

/-- Modelled from the spec: `returnReservation(reservationId)` (§4.3).
Fails with `NotFound` if no reservation matches, `AlreadyFinalized` if the
reservation is terminal.  On time (`daysLate == 0`): transition to RETURNED
with no fee.  Late: `fee = computeLateFee(daysLate, book.price)` is debited
through the Wallet Ledger (`adjustBalance`), and the reservation moves to
BOUGHT when `isBuyOut(fee, book.price)` holds, otherwise to LATE.  Returns
the new state together with the fee applied and the days late. -/
def returnReservation (now : ℚ) (reservationId : String) (st : State) :
    Except DomainError (State × ℚ × Int) :=
  match st.reservations.find? (fun r => r.reservationId = reservationId) with
  | none => .error .NotFound
  | some r =>
    if r.status.isTerminal then .error .AlreadyFinalized
    else
      let dl := daysLateOf now r.dueDate
      if dl ≤ 0 then .ok (setStatus st reservationId .returned, 0, dl)
      else
        match findBook st r.referenceId with
        | none => .error .NotFound
        | some bk =>
          let fee := computeLateFee dl bk.price
          match findWallet st r.userId with
          | none => .error .NotFound
          | some b =>
            match adjustBalance b (.val (-fee)) with
            | .error e => .error e
            | .ok b1 =>
              let st1 := setWallet st r.userId b1
              let newStatus : ReservationStatus :=
                if isBuyOut fee bk.price then .bought else .late
              .ok (setStatus st1 reservationId newStatus, fee, dl)

/-- Descending order on `reservedAt` used by the reservation history. -/
def byReservedAtDesc (a b : Reservation) : Prop :=
  b.reservedAt ≤ a.reservedAt

instance : DecidableRel byReservedAtDesc := fun a b =>
  inferInstanceAs (Decidable (b.reservedAt ≤ a.reservedAt))

instance : IsTotal Reservation byReservedAtDesc :=
  ⟨fun a b => le_total b.reservedAt a.reservedAt⟩

instance : IsTrans Reservation byReservedAtDesc :=
  ⟨fun _ _ _ hab hbc => le_trans hbc hab⟩

/-- Modelled from the spec: `getHistory(userId)` — all reservations of the
user ordered by `reservedAt` descending; the state is returned unchanged (no
mutation). -/
def getHistory (st : State) (userId : String) :
    List Reservation × State :=
  (List.insertionSort byReservedAtDesc
    (st.reservations.filter (fun r => r.userId = userId)), st)

/-! ### JavaScript number coercion

`catalogHandler.searchCatalog` coerces the `publicationYear` query string
with JavaScript's `Number(...)` and tests the result with `isNaN`.
`jsNumber` models `Number` on strings: surrounding whitespace is trimmed, the
empty string yields `0`, `0x`/`0o`/`0b` prefixes introduce radix literals, an
optional sign precedes a decimal literal (digits with an optional fraction
and exponent) or `Infinity`, and every other string yields NaN. -/

/-- Whitespace characters stripped by JavaScript string trimming (ASCII
subset). -/
def isJsSpace (c : Char) : Bool :=
  c = ' ' ∨ c = '\t' ∨ c = '\n' ∨ c = '\r' ∨ c = '\x0b' ∨ c = '\x0c'

/-- Strip leading and trailing whitespace from a character list. -/
def trimChars (cs : List Char) : List Char :=
  ((cs.dropWhile isJsSpace).reverse.dropWhile isJsSpace).reverse

/-- Model of JavaScript `String.prototype.trim()`. -/
def jsTrim (s : String) : String :=
  ⟨trimChars s.data⟩

/-- Numeric value of a list of decimal digit characters. -/
def digitsVal (ds : List Char) : Nat :=
  ds.foldl (fun a c => 10 * a + (c.toNat - '0'.toNat)) 0

/-- Parse the exponent suffix of a decimal literal: empty, or `e`/`E`
followed by an optional sign and at least one digit. -/
def parseExpPart : List Char → Option Int
  | [] => some 0
  | c :: rest =>
    if c = 'e' ∨ c = 'E' then
      match rest with
      | '+' :: ds =>
        if ds ≠ [] ∧ ds.all (fun d => d.isDigit) then some (digitsVal ds)
        else none
      | '-' :: ds =>
        if ds ≠ [] ∧ ds.all (fun d => d.isDigit) then
          some (-(digitsVal ds : Int))
        else none
      | ds =>
        if ds ≠ [] ∧ ds.all (fun d => d.isDigit) then some (digitsVal ds)
        else none
    else none

/-- Parse an unsigned decimal literal `digits [. digits] [exponent]` with at
least one digit in the mantissa. -/
def parseDecimal (cs : List Char) : Option ℚ :=
  let ip := cs.takeWhile (fun c => c.isDigit)
  let rest := cs.dropWhile (fun c => c.isDigit)
  match rest with
  | '.' :: rest2 =>
    let fp := rest2.takeWhile (fun c => c.isDigit)
    let rest3 := rest2.dropWhile (fun c => c.isDigit)
    if ip = [] ∧ fp = [] then none
    else
      (parseExpPart rest3).map (fun e =>
        ((digitsVal ip : ℚ) + (digitsVal fp : ℚ) / (10 : ℚ) ^ fp.length) *
          (10 : ℚ) ^ e)
  | _ =>
    if ip = [] then none
    else (parseExpPart rest).map (fun e => (digitsVal ip : ℚ) * (10 : ℚ) ^ e)

/-- Value of a digit character in the given radix, if valid. -/
def radixDigitVal (radix : Nat) (c : Char) : Option Nat :=
  let v :=
    if '0' ≤ c ∧ c ≤ '9' then some (c.toNat - '0'.toNat)
    else if 'a' ≤ c ∧ c ≤ 'f' then some (c.toNat - 'a'.toNat + 10)
    else if 'A' ≤ c ∧ c ≤ 'F' then some (c.toNat - 'A'.toNat + 10)
    else none
  match v with
  | some d => if d < radix then some d else none
  | none => none

/-- Parse a non-empty radix literal body (after `0x`, `0o` or `0b`). -/
def parseRadix (radix : Nat) (ds : List Char) : Option Nat :=
  if ds = [] then none
  else
    ds.foldl
      (fun acc c =>
        match acc, radixDigitVal radix c with
        | some a, some d => some (radix * a + d)
        | _, _ => none)
      (some 0)

/-- Model of JavaScript `Number(s)` for a string `s` (see the section
comment above). -/
def jsNumber (s : String) : JsNumber :=
  let t := trimChars s.data
  if t = [] then .val 0
  else
    match t with
    | '0' :: 'x' :: ds =>
      match parseRadix 16 ds with
      | some n => .val n
      | none => .nan
    | '0' :: 'X' :: ds =>
      match parseRadix 16 ds with
      | some n => .val n
      | none => .nan
    | '0' :: 'o' :: ds =>
      match parseRadix 8 ds with
      | some n => .val n
      | none => .nan
    | '0' :: 'O' :: ds =>
      match parseRadix 8 ds with
      | some n => .val n
      | none => .nan
    | '0' :: 'b' :: ds =>
      match parseRadix 2 ds with
      | some n => .val n
      | none => .nan
    | '0' :: 'B' :: ds =>
      match parseRadix 2 ds with
      | some n => .val n
      | none => .nan
    | cs =>
      let signed : Bool × List Char :=
        match cs with
        | '+' :: r => (false, r)
        | '-' :: r => (true, r)
        | r => (false, r)
      if signed.2 = "Infinity".data then
        if signed.1 then .negInf else .posInf
      else
        match parseDecimal signed.2 with
        | some q => .val (if signed.1 then -q else q)
        | none => .nan

/-! ### Catalog search handler

Embedded from `catalogHandler.searchCatalog` in the sources: the filter is
built from the `title`, `author` and `publicationYear` query parameters and
passed to `books.find(filter, { projection: { _id: 0 } })`; an unparseable
`publicationYear` short-circuits into a 400 response before any find. -/

/-- An Express query parameter value: absent, a single string, or a
repeated parameter (an array of strings, which is truthy but fails the
`typeof x === 'string'` test and is stringified by joining with commas for
`Number`). -/
inductive QVal where
  | missing : QVal
  | str (s : String) : QVal
  | strs (xs : List String) : QVal
deriving DecidableEq

/-- JavaScript truthiness of a query parameter value: `undefined` and the
empty string are falsy, non-empty strings and arrays are truthy. -/
def qvalTruthy : QVal → Bool
  | .missing => false
  | .str s => if s = "" then false else true
  | .strs _ => true

/-- JavaScript `Number(...)` applied to a query parameter value:
`Number(undefined)` is NaN, a string is coerced by `jsNumber`, an array is
first stringified by joining with commas. -/
def qvalNumber : QVal → JsNumber
  | .missing => .nan
  | .str s => jsNumber s
  | .strs xs => jsNumber (String.intercalate "," xs)

/-- A `$regex` clause as built by the handler: `new RegExp(source, 'i')`. -/
structure RegexFilter where
  source : String
  ignoreCase : Bool
deriving DecidableEq

/-- The Mongo filter document the handler assembles. -/
structure CatalogFilter where
  title : Option RegexFilter
  author : Option RegexFilter
  publicationYear : Option JsNumber
deriving DecidableEq

/-- Outcome of `searchCatalog`: either a 400 response (issued before any
database access) or a `find` call with the assembled filter, with the `_id`
field excluded from the projection when `excludeId` is true. -/
inductive CatalogResult where
  | badRequest (message : String) : CatalogResult
  | okFind (filter : CatalogFilter) (excludeId : Bool) : CatalogResult
deriving DecidableEq

/-- The three query parameters of `GET /books`. -/
structure CatalogQuery where
  title : QVal
  author : QVal
  publicationYear : QVal

/-- Sample query fixture: a padded title, a repeated author parameter and
no publication year. -/
def sampleQueryTA : CatalogQuery :=
  { title := .str " Test ", author := .strs ["a", "b"],
    publicationYear := .missing }

/-- Filter clause contributed by a text parameter (`title` / `author`):
embedded from `if (x && typeof x === 'string' && x.trim().length > 0)
filter.x = { $regex: new RegExp(x.trim(), 'i') }`. -/
def textClause (v : QVal) : Option RegexFilter :=
  match v with
  | .str s =>
    if s ≠ "" ∧ 0 < (jsTrim s).length then
      some { source := jsTrim s, ignoreCase := true }
    else none
  | _ => none

/-- Embedded from `catalogHandler.searchCatalog` (sources): builds the
filter from the query parameters and either issues the `find` (excluding
`_id`) or responds 400 when `publicationYear` is present but NaN. -/
def searchCatalog (q : CatalogQuery) : CatalogResult :=
  let filter : CatalogFilter :=
    { title := textClause q.title
      author := textClause q.author
      publicationYear := none }
  if qvalTruthy q.publicationYear then
    match qvalNumber q.publicationYear with
    | .nan => .badRequest "Invalid publicationYear parameter."
    | y => .okFind { filter with publicationYear := some y } true
  else
    .okFind filter true

/-! ### OpenAPI post-processing: `removeIdProperties`

Embedded from `compile.ts`: recursively rebuilds a JSON-like value, mapping
over arrays, dropping every `$id` key of objects and recursing into the
remaining values, and returning primitives unchanged. -/

/-- A JSON-like JavaScript value as traversed by `removeIdProperties`. -/
inductive JsVal where
  | null : JsVal
  | bool (b : Bool) : JsVal
  | num (q : ℚ) : JsVal
  | str (s : String) : JsVal
  | arr (elems : List JsVal) : JsVal
  | obj (fields : List (String × JsVal)) : JsVal

/-- Whether a value is a primitive (neither array nor object); JavaScript
`null` has `typeof 'object'` but is falsy, so `removeIdProperties` returns
it unchanged like a primitive. -/
def JsVal.isLeaf : JsVal → Bool
  | .arr _ => false
  | .obj _ => false
  | _ => true

mutual

/-- Embedded from `removeIdProperties` in `compile.ts`. -/
def removeIdProperties : JsVal → JsVal
  | .arr xs => .arr (removeIdList xs)
  | .obj fs => .obj (removeIdFields fs)
  | v => v

/-- `removeIdProperties` mapped over the elements of an array. -/
def removeIdList : List JsVal → List JsVal
  | [] => []
  | x :: xs => removeIdProperties x :: removeIdList xs

/-- `removeIdProperties` over the key/value pairs of an object: `$id` keys
are dropped, the other values are rebuilt recursively. -/
def removeIdFields : List (String × JsVal) → List (String × JsVal)
  | [] => []
  | (k, v) :: fs =>
    if k = "$id" then removeIdFields fs
    else (k, removeIdProperties v) :: removeIdFields fs

end

mutual

/-- No `$id` key occurs anywhere in the value. -/
def noIdKeys : JsVal → Bool
  | .arr xs => noIdKeysList xs
  | .obj fs => noIdKeysFields fs
  | _ => true

/-- No `$id` key occurs anywhere in the array elements. -/
def noIdKeysList : List JsVal → Bool
  | [] => true
  | x :: xs => noIdKeys x && noIdKeysList xs

/-- No field is keyed `$id`, and no `$id` key occurs in any field value. -/
def noIdKeysFields : List (String × JsVal) → Bool
  | [] => true
  | (k, v) :: fs => decide (k ≠ "$id") && noIdKeys v && noIdKeysFields fs

end

/-- First value stored under a key in an object's field list (JavaScript
objects have unique keys; on lists this is the first match). -/
def lookupField (fs : List (String × JsVal)) (k : String) : Option JsVal :=
  (fs.find? (fun f => f.1 = k)).map (fun f => f.2)

/-- Example fixture: an object with `$id` keys at several nesting depths. -/
def exJsVal : JsVal :=
  .obj [("$id", .str "#/components/schemas/Book"),
        ("title", .str "T"),
        ("nested", .obj [("$id", .num 1),
                         ("k", .arr [.obj [("$id", .null),
                                           ("v", .num 2)]])])]

/-- One step of a path into a JSON-like value: an object key or an array
index. -/
inductive PathStep where
  | key (k : String) : PathStep
  | index (i : Nat) : PathStep
deriving DecidableEq

/-- Follow a path of keys and indices into a value. -/
def getPath : JsVal → List PathStep → Option JsVal
  | v, [] => some v
  | .arr xs, .index i :: p =>
    match xs.get? i with
    | some x => getPath x p
    | none => none
  | .obj fs, .key k :: p =>
    match lookupField fs k with
    | some x => getPath x p
    | none => none
  | _, _ => none

/-- Status of the reservation with the given id, if any. -/
def statusOf (st : State) (reservationId : String) : Option ReservationStatus :=
  (st.reservations.find?
    (fun r => r.reservationId = reservationId)).map (fun r => r.status)

/-- Scenario B fixture: a reservation due at time 0, returned at time 3
(3 days late), retail price 36, wallet balance 50. -/
def scenarioBState : State :=
  { books := [{ id := "b1", price := 36 }],
    reservations :=
      [{ reservationId := "r1", userId := "u1", referenceId := "b1",
         reservedAt := -5, dueDate := 0, status := .borrowed,
         feeCharged := some 3 }],
    wallets := [("u1", 50)] }

/-- Scenario C fixture: a reservation due at time 0, returned at time 135
(135 days late), retail price 27, wallet balance 50. -/
def scenarioCState : State :=
  { books := [{ id := "b1", price := 27 }],
    reservations :=
      [{ reservationId := "r1", userId := "u1", referenceId := "b1",
         reservedAt := -10, dueDate := 0, status := .borrowed,
         feeCharged := some 3 }],
    wallets := [("u1", 50)] }

/-- On-time fixture: a reservation due at time 5, returned at time 0. -/
def onTimeState : State :=
  { books := [{ id := "b1", price := 27 }],
    reservations :=
      [{ reservationId := "r1", userId := "u1", referenceId := "b1",
         reservedAt := 0, dueDate := 5, status := .reserved,
         feeCharged := some 3 }],
    wallets := [("u1", 50)] }

/-! ### Helper lemmas -/

/-- Updating a wallet that exists makes its balance the stored value. -/
theorem find?_update_self (l : List (String × ℚ)) (u : String) (x : ℚ)
    (h : (l.find? (fun w => w.1 = u)).isSome = true) :
    (l.map (fun w => if w.1 = u then (w.1, x) else w)).find?
      (fun w => w.1 = u) = some (u, x) := by
  induction l with
  | nil => simp [List.find?] at h
  | cons a l ih =>
    by_cases ha : a.1 = u
    · simp [List.find?, ha]
    · simp only [List.map_cons, if_neg ha]
      rw [List.find?_cons_of_neg _ (by simpa using ha)]
      rw [List.find?_cons_of_neg _ (by simpa using ha)] at h
      exact ih h

/-- Prepending an active reservation of the user increases the active
count by one. -/
theorem length_activeReservations_cons_active (r : Reservation)
    (rs : List Reservation) (u : String)
    (hu : r.userId = u) (ha : r.status.isActive = true) :
    (activeReservations (r :: rs) u).length =
      (activeReservations rs u).length + 1 := by
  simp [activeReservations, List.filter_cons, hu, ha]

/-- `findWallet` after `setWallet` on the same user. -/
theorem findWallet_setWallet_self (st : State) (u : String) (x b : ℚ)
    (h : findWallet st u = some b) :
    findWallet (setWallet st u x) u = some x := by
  have hs : (st.wallets.find? (fun w => w.1 = u)).isSome = true := by
    unfold findWallet at h
    cases hf : st.wallets.find? (fun w => w.1 = u) with
    | none => rw [hf] at h; cases h
    | some w => simp
  unfold findWallet setWallet
  simp [find?_update_self st.wallets u x hs]

/-- `find?` after `setStatus`'s map, on the reservation that was found. -/
theorem find?_setStatus (l : List Reservation) (rid : String)
    (s : ReservationStatus) (r : Reservation)
    (h : l.find? (fun x => x.reservationId = rid) = some r) :
    (l.map (fun x => if x.reservationId = rid
                     then { x with status := s } else x)).find?
      (fun x => x.reservationId = rid) = some { r with status := s } := by
  induction l with
  | nil => cases h
  | cons a l ih =>
    by_cases ha : a.reservationId = rid
    · rw [List.find?_cons_of_pos _ (by simpa using ha)] at h
      injection h with h
      subst h
      simp only [List.map_cons, if_pos ha]
      rw [List.find?_cons_of_pos _ (by simpa using ha)]
    · rw [List.find?_cons_of_neg _ (by simpa using ha)] at h
      simp only [List.map_cons, if_neg ha]
      rw [List.find?_cons_of_neg _ (by simpa using ha)]
      exact ih h

/-- The late-return branch of `returnReservation` as one equation: with an
active reservation, a positive number of days late, an existing book and a
wallet covering the fee, the call succeeds, debits the fee and moves the
reservation to BOUGHT or LATE according to `isBuyOut`. -/
theorem returnReservation_late_eq (now : ℚ) (rid : String) (st : State)
    (r : Reservation) (bk : Book) (b : ℚ)
    (hr : st.reservations.find? (fun x => x.reservationId = rid) = some r)
    (hact : r.status.isTerminal = false)
    (hlate : 0 < daysLateOf now r.dueDate)
    (hbook : findBook st r.referenceId = some bk)
    (hw : findWallet st r.userId = some b)
    (hfee : computeLateFee (daysLateOf now r.dueDate) bk.price ≤ b) :
    returnReservation now rid st =
      .ok (setStatus
             (setWallet st r.userId
               (b - computeLateFee (daysLateOf now r.dueDate) bk.price))
             rid
             (if isBuyOut (computeLateFee (daysLateOf now r.dueDate) bk.price)
                   bk.price
              then ReservationStatus.bought else ReservationStatus.late),
           computeLateFee (daysLateOf now r.dueDate) bk.price,
           daysLateOf now r.dueDate) := by
  have hadj : adjustBalance b
      (.val (-(computeLateFee (daysLateOf now r.dueDate) bk.price))) =
      .ok (b - computeLateFee (daysLateOf now r.dueDate) bk.price) := by
    simp only [adjustBalance]
    have h1 : ¬(-(computeLateFee (daysLateOf now r.dueDate) bk.price) < 0 ∧
        b + -(computeLateFee (daysLateOf now r.dueDate) bk.price) < 0) := by
      rintro ⟨-, h2⟩
      rw [← sub_eq_add_neg] at h2
      linarith
    rw [if_neg h1, ← sub_eq_add_neg]
  simp [returnReservation, hr, hact, not_le.mpr hlate, hbook, hw, hadj]

/-! ### Claim theorems -/

/-- C1: `computeLateFee(daysLate, retailPrice)` equals 0 when
`daysLate ≤ 0`, and otherwise equals
`min(daysLate * LATE_FEE_PER_DAY, retailPrice)` with
`LATE_FEE_PER_DAY = 0.2`; consequently for `daysLate > 0` and
`retailPrice > 0` the fee never exceeds the retail price. -/
theorem computeLateFee_spec (daysLate : Int) (retailPrice : ℚ) :
    LATE_FEE_PER_DAY = (2 : ℚ) / 10 ∧
    (daysLate ≤ 0 → computeLateFee daysLate retailPrice = 0) ∧
    (0 < daysLate →
      computeLateFee daysLate retailPrice =
        min (daysLate * LATE_FEE_PER_DAY) retailPrice) ∧
    (0 < daysLate → 0 < retailPrice →
      computeLateFee daysLate retailPrice ≤ retailPrice) := by
  refine ⟨by norm_num [LATE_FEE_PER_DAY], fun h => ?_, fun h => ?_, fun h _ => ?_⟩
  · simp [computeLateFee, h]
  · simp [computeLateFee, not_le.mpr h]
  · simp only [computeLateFee, if_neg (not_le.mpr h)]
    exact min_le_right _ _

/-- Witness for C1 at `daysLate = -2, 3` and `retailPrice = 10, 36`. -/
theorem computeLateFee_spec_witness :
    computeLateFee (-2) 10 = 0 ∧
    computeLateFee 3 36 = min (3 * LATE_FEE_PER_DAY) 36 ∧
    computeLateFee 3 36 ≤ 36 :=
  ⟨(computeLateFee_spec (-2) 10).2.1 (by norm_num),
   (computeLateFee_spec 3 36).2.2.1 (by norm_num),
   (computeLateFee_spec 3 36).2.2.2 (by norm_num) (by norm_num)⟩

/-- C3: `adjustBalance` rejects entirely any debit that would drive the
balance negative (failing with `InsufficientFunds`, returning no adjusted
balance), fails with `InvalidAmount` on any non-finite delta, and every
accepted debit leaves the balance non-negative. -/
theorem adjustBalance_no_negative (b d : ℚ) (delta : JsNumber) :
    (d < 0 → b + d < 0 →
      adjustBalance b (.val d) = .error .InsufficientFunds) ∧
    (delta.isFinite = false →
      adjustBalance b delta = .error .InvalidAmount) ∧
    (∀ b1, d < 0 → adjustBalance b (.val d) = .ok b1 → 0 ≤ b1) := by
  refine ⟨fun h1 h2 => ?_, fun h => ?_, fun b1 hd hok => ?_⟩
  · simp [adjustBalance, h1, h2]
  · cases delta with
    | val q => simp [JsNumber.isFinite] at h
    | nan => simp [adjustBalance]
    | posInf => simp [adjustBalance]
    | negInf => simp [adjustBalance]
  · simp only [adjustBalance] at hok
    split at hok
    · cases hok
    · rename_i hcond
      injection hok with hb1
      rw [← hb1]
      push_neg at hcond
      exact hcond hd

/-- Witness for C3: a debit of 10 from balance 5 is rejected, NaN is an
invalid amount, and the accepted debit of 2 from balance 5 leaves 3 ≥ 0. -/
theorem adjustBalance_no_negative_witness :
    adjustBalance 5 (.val (-10)) = .error .InsufficientFunds ∧
    adjustBalance 5 .nan = .error .InvalidAmount ∧
    (0 : ℚ) ≤ 3 :=
  ⟨(adjustBalance_no_negative 5 (-10) .nan).1 (by norm_num) (by norm_num),
   (adjustBalance_no_negative 5 (-10) .nan).2.1 rfl,
   (adjustBalance_no_negative 5 (-2) .nan).2.2 3 (by norm_num)
     (by norm_num [adjustBalance])⟩

/-- C4: when the book exists, the user is below the active-reservation cap
and the wallet covers the fee, `createReservation` succeeds, debits the
wallet by exactly `reservationFee()` (which is 3), and creates a RESERVED
reservation with `reservedAt = now`,
`dueDate = computeDueDate now = now + BOOK_RETURN_DUE_DATE_DAYS` and
`feeCharged = reservationFee()`. -/
theorem createReservation_success (now : ℚ) (newId u refId : String)
    (st : State) (bk : Book) (b : ℚ)
    (hbook : findBook st refId = some bk)
    (hcount : activeCount st u < MAX_ACTIVE_RESERVATIONS)
    (hw : findWallet st u = some b)
    (hbal : reservationFee ≤ b) :
    ∃ st1,
      createReservation now newId u refId st =
        .ok ({ reservationId := newId, userId := u, referenceId := refId,
               reservedAt := now, dueDate := computeDueDate now,
               status := .reserved, feeCharged := some reservationFee },
             st1) ∧
      computeDueDate now = now + BOOK_RETURN_DUE_DATE_DAYS ∧
      reservationFee = 3 ∧
      findWallet st1 u = some (b - reservationFee) := by
  simp only [createReservation, hbook, hw,
    if_neg (not_le.mpr hcount), if_neg (not_lt.mpr hbal)]
  refine ⟨_, rfl, rfl, rfl, ?_⟩
  exact findWallet_setWallet_self st u (b - reservationFee) b hw

/-- Witness for C4, Scenario A: balance 10, no active reservations, fee 3;
creation succeeds and the balance becomes 7. -/
theorem createReservation_success_witness :
    ∃ st1,
      createReservation 0 "r1" "u1" "b1"
        { books := [{ id := "b1", price := 27 }], reservations := [],
          wallets := [("u1", 10)] } =
        .ok ({ reservationId := "r1", userId := "u1", referenceId := "b1",
               reservedAt := 0, dueDate := computeDueDate 0,
               status := .reserved, feeCharged := some reservationFee },
             st1) ∧
      findWallet st1 "u1" = some 7 := by
  obtain ⟨st1, h1, _, _, h4⟩ :=
    createReservation_success 0 "r1" "u1" "b1"
      { books := [{ id := "b1", price := 27 }], reservations := [],
        wallets := [("u1", 10)] }
      { id := "b1", price := 27 } 10
      (by decide) (by decide) (by decide)
      (by norm_num [reservationFee, BOOK_RESERVATION_FEE])
  refine ⟨st1, h1, ?_⟩
  rw [h4]
  norm_num [reservationFee, BOOK_RESERVATION_FEE]

/-- C5: a user already holding `MAX_ACTIVE_RESERVATIONS` (3) active
reservations cannot create another one — the call fails with
`TooManyActiveReservations` (returning no new state, so no wallet mutation
and no reservation) — and any successful creation keeps the user's active
count within the cap. -/
theorem createReservation_too_many (now : ℚ) (newId u refId : String)
    (st : State) (bk : Book)
    (hbook : findBook st refId = some bk)
    (hfull : activeCount st u = MAX_ACTIVE_RESERVATIONS) :
    createReservation now newId u refId st =
      .error .TooManyActiveReservations ∧
    (∀ now2 newId2 refId2 (st2 : State) r st2',
      activeCount st2 u ≤ MAX_ACTIVE_RESERVATIONS →
      createReservation now2 newId2 u refId2 st2 = .ok (r, st2') →
      activeCount st2' u ≤ MAX_ACTIVE_RESERVATIONS) := by
  constructor
  · simp [createReservation, hbook, hfull]
  · intro now2 newId2 refId2 st2 r st2' _hle hok
    rcases hfb : findBook st2 refId2 with _ | bk2
    · simp [createReservation, hfb] at hok
    · simp only [createReservation, hfb] at hok
      split at hok
      · cases hok
      · rename_i hcap
        rcases hfw : findWallet st2 u with _ | b2
        · simp [hfw] at hok
        · simp only [hfw] at hok
          split at hok
          · cases hok
          · injection hok with hpair
            have hst : st2' =
                { setWallet st2 u (b2 - reservationFee) with
                  reservations :=
                    { reservationId := newId2, userId := u,
                      referenceId := refId2, reservedAt := now2,
                      dueDate := computeDueDate now2,
                      status := .reserved,
                      feeCharged := some reservationFee } ::
                    (setWallet st2 u (b2 - reservationFee)).reservations } :=
              (congrArg Prod.snd hpair).symm
            rw [hst]
            show (activeReservations
              ({ reservationId := newId2, userId := u, referenceId := refId2,
                 reservedAt := now2, dueDate := computeDueDate now2,
                 status := .reserved, feeCharged := some reservationFee } ::
                 st2.reservations) u).length ≤ MAX_ACTIVE_RESERVATIONS
            rw [length_activeReservations_cons_active
              { reservationId := newId2, userId := u, referenceId := refId2,
                reservedAt := now2, dueDate := computeDueDate now2,
                status := .reserved, feeCharged := some reservationFee }
              st2.reservations u rfl rfl]
            have hlt : (activeReservations st2.reservations u).length <
                MAX_ACTIVE_RESERVATIONS := by
              simpa only [activeCount] using lt_of_not_le hcap
            omega

/-- Witness for C5: a user with three active reservations and an existing
book sees the fourth creation rejected. -/
theorem createReservation_too_many_witness :
    createReservation 0 "r4" "u1" "b1"
      { books := [{ id := "b1", price := 27 }],
        reservations :=
          [{ reservationId := "r1", userId := "u1", referenceId := "b1",
             reservedAt := 0, dueDate := 5, status := .reserved,
             feeCharged := some 3 },
           { reservationId := "r2", userId := "u1", referenceId := "b1",
             reservedAt := 0, dueDate := 5, status := .borrowed,
             feeCharged := some 3 },
           { reservationId := "r3", userId := "u1", referenceId := "b1",
             reservedAt := 0, dueDate := 5, status := .reserved,
             feeCharged := some 3 }],
        wallets := [("u1", 10)] } =
      .error .TooManyActiveReservations :=
  (createReservation_too_many 0 "r4" "u1" "b1" _
    { id := "b1", price := 27 } (by decide) (by decide)).1

/-- C2: a late return of an active reservation debits the wallet by
`fee = computeLateFee(daysLate, book.price)` and moves the reservation to
BOUGHT when `isBuyOut(fee, book.price)` holds and to LATE otherwise; in
particular 3 days late at price 36 yields fee 0.60 (`3/5`) and LATE, while
135 days late at price 27 yields fee 27 and BOUGHT. -/
theorem returnReservation_late_spec (now : ℚ) (rid : String) (st : State)
    (r : Reservation) (bk : Book) (b : ℚ)
    (hr : st.reservations.find? (fun x => x.reservationId = rid) = some r)
    (hact : r.status.isTerminal = false)
    (hlate : 0 < daysLateOf now r.dueDate)
    (hbook : findBook st r.referenceId = some bk)
    (hw : findWallet st r.userId = some b)
    (hfee : computeLateFee (daysLateOf now r.dueDate) bk.price ≤ b) :
    (returnReservation now rid st =
      .ok (setStatus
             (setWallet st r.userId
               (b - computeLateFee (daysLateOf now r.dueDate) bk.price))
             rid
             (if isBuyOut (computeLateFee (daysLateOf now r.dueDate) bk.price)
                   bk.price
              then ReservationStatus.bought else ReservationStatus.late),
           computeLateFee (daysLateOf now r.dueDate) bk.price,
           daysLateOf now r.dueDate)) ∧
    statusOf
      (setStatus
        (setWallet st r.userId
          (b - computeLateFee (daysLateOf now r.dueDate) bk.price))
        rid
        (if isBuyOut (computeLateFee (daysLateOf now r.dueDate) bk.price)
              bk.price
         then ReservationStatus.bought else ReservationStatus.late))
      rid =
      some (if isBuyOut (computeLateFee (daysLateOf now r.dueDate) bk.price)
                 bk.price
            then ReservationStatus.bought else ReservationStatus.late) ∧
    findWallet
      (setStatus
        (setWallet st r.userId
          (b - computeLateFee (daysLateOf now r.dueDate) bk.price))
        rid
        (if isBuyOut (computeLateFee (daysLateOf now r.dueDate) bk.price)
              bk.price
         then ReservationStatus.bought else ReservationStatus.late))
      r.userId =
      some (b - computeLateFee (daysLateOf now r.dueDate) bk.price) ∧
    computeLateFee 3 36 = 3 / 5 ∧
    isBuyOut (computeLateFee 3 36) 36 = false ∧
    computeLateFee 135 27 = 27 ∧
    isBuyOut (computeLateFee 135 27) 27 = true := by
  refine ⟨returnReservation_late_eq now rid st r bk b hr hact hlate hbook hw
      hfee, ?_, ?_, ?_, ?_, ?_, ?_⟩
  · show ((st.reservations.map _).find? _).map _ = _
    rw [find?_setStatus st.reservations rid _ r hr]
    rfl
  · exact findWallet_setWallet_self st r.userId _ b hw
  · norm_num [computeLateFee, LATE_FEE_PER_DAY, min_def]
  · norm_num [computeLateFee, isBuyOut, LATE_FEE_PER_DAY, min_def]
  · norm_num [computeLateFee, LATE_FEE_PER_DAY, min_def]
  · norm_num [computeLateFee, isBuyOut, LATE_FEE_PER_DAY, min_def]

/-- Witness for C2: Scenario B (3 days late, price 36) and Scenario C
(135 days late, price 27) both succeed, with fees 0.60 and 27. -/
theorem returnReservation_late_spec_witness :
    (∃ outB, returnReservation 3 "r1" scenarioBState = .ok outB) ∧
    (∃ outC, returnReservation 135 "r1" scenarioCState = .ok outC) ∧
    computeLateFee 3 36 = 3 / 5 ∧
    isBuyOut (computeLateFee 3 36) 36 = false ∧
    computeLateFee 135 27 = 27 ∧
    isBuyOut (computeLateFee 135 27) 27 = true := by
  have hdl3 : daysLateOf 3 (0 : ℚ) = 3 := by norm_num [daysLateOf]
  have hdl135 : daysLateOf 135 (0 : ℚ) = 135 := by norm_num [daysLateOf]
  obtain ⟨hB, -, -, hf36, hb36, hf27, hb27⟩ :=
    returnReservation_late_spec 3 "r1" scenarioBState
      { reservationId := "r1", userId := "u1", referenceId := "b1",
        reservedAt := -5, dueDate := 0, status := .borrowed,
        feeCharged := some 3 }
      { id := "b1", price := 36 } 50
      (by decide) rfl
      (by show (0 : Int) < daysLateOf 3 (0 : ℚ); rw [hdl3]; norm_num)
      (by decide) (by decide)
      (by show computeLateFee (daysLateOf 3 (0 : ℚ)) (36 : ℚ) ≤ 50
          rw [hdl3]
          norm_num [computeLateFee, LATE_FEE_PER_DAY, min_def])
  obtain ⟨hC, -, -, -, -, -, -⟩ :=
    returnReservation_late_spec 135 "r1" scenarioCState
      { reservationId := "r1", userId := "u1", referenceId := "b1",
        reservedAt := -10, dueDate := 0, status := .borrowed,
        feeCharged := some 3 }
      { id := "b1", price := 27 } 50
      (by decide) rfl
      (by show (0 : Int) < daysLateOf 135 (0 : ℚ); rw [hdl135]; norm_num)
      (by decide) (by decide)
      (by show computeLateFee (daysLateOf 135 (0 : ℚ)) (27 : ℚ) ≤ 50
          rw [hdl135]
          norm_num [computeLateFee, LATE_FEE_PER_DAY, min_def])
  exact ⟨⟨_, hB⟩, ⟨_, hC⟩, hf36, hb36, hf27, hb27⟩

/-- C6: `returnReservation` is idempotent in effect — an id matching no
reservation fails with `NotFound`, a terminal reservation fails with
`AlreadyFinalized`, the first call on an active reservation succeeds (given
the book and a covering wallet), and after any successful call every
further call on the same id fails with `AlreadyFinalized`, so it performs
no further debit (the wallet is debited exactly once). -/
theorem returnReservation_idempotent (now now2 : ℚ) (rid : String)
    (st : State) :
    (st.reservations.find? (fun x => x.reservationId = rid) = none →
      returnReservation now rid st = .error .NotFound) ∧
    (∀ r, st.reservations.find? (fun x => x.reservationId = rid) = some r →
      r.status.isTerminal = true →
      returnReservation now rid st = .error .AlreadyFinalized) ∧
    (∀ r bk b,
      st.reservations.find? (fun x => x.reservationId = rid) = some r →
      r.status.isTerminal = false →
      findBook st r.referenceId = some bk →
      findWallet st r.userId = some b →
      computeLateFee (daysLateOf now r.dueDate) bk.price ≤ b →
      ∃ out, returnReservation now rid st = .ok out) ∧
    (∀ st' fee dl, returnReservation now rid st = .ok (st', fee, dl) →
      returnReservation now2 rid st' = .error .AlreadyFinalized) := by
  refine ⟨fun h => by simp [returnReservation, h], fun r hr hterm => ?_,
    fun r bk b hr hact hbook hw hfee => ?_, fun st' fee dl hok => ?_⟩
  · simp [returnReservation, hr, hterm]
  · by_cases hdl : daysLateOf now r.dueDate ≤ 0
    · exact ⟨(setStatus st rid .returned, 0, daysLateOf now r.dueDate),
        by simp [returnReservation, hr, hact, hdl]⟩
    · exact ⟨_, returnReservation_late_eq now rid st r bk b hr hact
        (lt_of_not_le hdl) hbook hw hfee⟩
  · rcases hfind : st.reservations.find? (fun x => x.reservationId = rid)
      with _ | r
    · simp [returnReservation, hfind] at hok
    · cases hterm : r.status.isTerminal with
      | true => simp [returnReservation, hfind, hterm] at hok
      | false =>
        simp only [returnReservation, hfind, hterm] at hok
        rw [if_neg (by simp)] at hok
        split at hok
        · injection hok with hok
          have hst : st' = setStatus st rid .returned :=
            (congrArg (fun p => p.1) hok).symm
          subst hst
          have hfind2 := find?_setStatus st.reservations rid .returned r hfind
          simp [returnReservation, setStatus, hfind2,
            ReservationStatus.isTerminal]
        · rcases hfb : findBook st r.referenceId with _ | bk
          · simp [hfb] at hok
          · simp only [hfb] at hok
            rcases hfw : findWallet st r.userId with _ | b
            · simp [hfw] at hok
            · simp only [hfw] at hok
              rcases hadj : adjustBalance b
                  (.val (-computeLateFee (daysLateOf now r.dueDate) bk.price))
                with e | b1
              · simp [hadj] at hok
              · simp only [hadj] at hok
                injection hok with hok
                have hst : st' = setStatus (setWallet st r.userId b1) rid
                    (if isBuyOut
                          (computeLateFee (daysLateOf now r.dueDate) bk.price)
                          bk.price
                     then ReservationStatus.bought
                     else ReservationStatus.late) :=
                  (congrArg (fun p => p.1) hok).symm
                subst hst
                have hfind2 := find?_setStatus st.reservations rid
                  (if isBuyOut
                        (computeLateFee (daysLateOf now r.dueDate) bk.price)
                        bk.price
                   then ReservationStatus.bought
                   else ReservationStatus.late) r hfind
                have hterm2 : (if isBuyOut
                      (computeLateFee (daysLateOf now r.dueDate) bk.price)
                      bk.price
                    then ReservationStatus.bought
                    else ReservationStatus.late).isTerminal = true := by
                  split <;> rfl
                simp [returnReservation, setStatus, setWallet, hfind2, hterm2]

/-- Witness for C6: an on-time return succeeds once, and the repeated call
on the resulting state fails with `AlreadyFinalized`; an unknown id fails
with `NotFound`. -/
theorem returnReservation_idempotent_witness :
    returnReservation 7 "r1" (setStatus onTimeState "r1" .returned) =
      .error .AlreadyFinalized ∧
    returnReservation 0 "zzz" onTimeState = .error .NotFound := by
  have hdl : daysLateOf 0 (5 : ℚ) = 0 := by norm_num [daysLateOf]
  have hok : returnReservation 0 "r1" onTimeState =
      .ok (setStatus onTimeState "r1" .returned, 0, 0) := by
    have h0 : daysLateOf 0
        (({ reservationId := "r1", userId := "u1", referenceId := "b1",
            reservedAt := 0, dueDate := 5, status := .reserved,
            feeCharged := some 3 } : Reservation)).dueDate = 0 := hdl
    simp [returnReservation, onTimeState, h0, ReservationStatus.isTerminal]
  refine ⟨(returnReservation_idempotent 0 7 "r1" onTimeState).2.2.2
      (setStatus onTimeState "r1" .returned) 0 0 hok,
    (returnReservation_idempotent 0 7 "zzz" onTimeState).1 (by decide)⟩

/-- C7: `getHistory(userId)` returns exactly the user's reservations,
sorted by `reservedAt` descending, and performs no state mutation (the
state component of the result is the input state). -/
theorem getHistory_spec (st : State) (u : String) :
    (getHistory st u).2 = st ∧
    List.Sorted byReservedAtDesc (getHistory st u).1 ∧
    ((getHistory st u).1).Perm
      (st.reservations.filter (fun r => r.userId = u)) ∧
    (∀ r, r ∈ (getHistory st u).1 ↔ r ∈ st.reservations ∧ r.userId = u) := by
  refine ⟨rfl, List.sorted_insertionSort byReservedAtDesc _,
    List.perm_insertionSort byReservedAtDesc _, fun r => ?_⟩
  simp [getHistory, List.mem_filter]

/-- C8: a `publicationYear` query parameter that is present but does not
parse as a number makes `searchCatalog` respond 400 with message
"Invalid publicationYear parameter."; the result is a `badRequest`, not an
`okFind`, so no `find` is issued on the books collection. -/
theorem searchCatalog_invalid_year (q : CatalogQuery)
    (hpresent : q.publicationYear ≠ .missing)
    (hnan : qvalNumber q.publicationYear = .nan) :
    searchCatalog q = .badRequest "Invalid publicationYear parameter." := by
  have htruthy : qvalTruthy q.publicationYear = true := by
    cases hpy : q.publicationYear with
    | missing => exact absurd hpy hpresent
    | str s =>
      have hs : s ≠ "" := by
        intro h
        subst h
        rw [hpy] at hnan
        simp only [qvalNumber] at hnan
        exact absurd hnan (by decide)
      simp [qvalTruthy, hs]
    | strs xs => simp [qvalTruthy]
  simp [searchCatalog, htruthy, hnan]

/-- Witness for C8 at `publicationYear = "invalid"`. -/
theorem searchCatalog_invalid_year_witness :
    searchCatalog { title := .missing, author := .missing,
                    publicationYear := .str "invalid" } =
      .badRequest "Invalid publicationYear parameter." :=
  searchCatalog_invalid_year _ (by decide) (by decide)

/-- C10: the catalog filter is built only from non-empty inputs — an
absent, non-string or whitespace-only `title`/`author` contributes no
clause, a non-empty one contributes a case-insensitive regex on the trimmed
value, and with no query parameters the handler issues the `find` with the
empty filter and the `_id` field excluded. -/
theorem searchCatalog_filter_building :
    textClause .missing = none ∧
    (∀ xs, textClause (.strs xs) = none) ∧
    (∀ s, jsTrim s = "" → textClause (.str s) = none) ∧
    (∀ s, jsTrim s ≠ "" →
      textClause (.str s) =
        some { source := jsTrim s, ignoreCase := true }) ∧
    (∀ q : CatalogQuery, qvalTruthy q.publicationYear = false →
      searchCatalog q =
        .okFind { title := textClause q.title,
                  author := textClause q.author,
                  publicationYear := none } true) ∧
    searchCatalog { title := .missing, author := .missing,
                    publicationYear := .missing } =
      .okFind { title := none, author := none, publicationYear := none }
        true := by
  refine ⟨rfl, fun xs => rfl, fun s hs => ?_, fun s hs => ?_,
    fun q hq => ?_, rfl⟩
  · simp [textClause, hs]
  · have hs' : s ≠ "" := by
      intro h
      subst h
      exact hs (by decide)
    have hne : (jsTrim s).data ≠ [] := by
      intro h
      exact hs (String.ext (by simp [h]))
    have hlen : 0 < (jsTrim s).length := List.length_pos.mpr hne
    simp only [textClause]
    rw [if_pos ⟨hs', hlen⟩]
  · simp [searchCatalog, hq]

/-- Witness for C10: a whitespace-only title gives no clause, a padded
title gives a trimmed case-insensitive clause, and a query with only a
repeated (non-string) author issues the find with just the title clause. -/
theorem searchCatalog_filter_building_witness :
    textClause (.str "   ") = none ∧
    textClause (.str " Test ") =
      some { source := "Test", ignoreCase := true } ∧
    searchCatalog sampleQueryTA =
      .okFind { title := some { source := "Test", ignoreCase := true },
                author := none, publicationYear := none } true := by
  obtain ⟨-, -, h3, h4, h5, -⟩ := searchCatalog_filter_building
  refine ⟨h3 "   " (by decide), ?_, ?_⟩
  · have h := h4 " Test " (by decide)
    rwa [show jsTrim " Test " = "Test" from by decide] at h
  · have h := h5 sampleQueryTA rfl
    rw [h]
    rw [show sampleQueryTA.title = .str " Test " from rfl]
    rw [show sampleQueryTA.author = .strs ["a", "b"] from rfl]
    rw [show textClause (.str " Test ") =
      some { source := "Test", ignoreCase := true } from by decide]
    rfl

/-- `removeIdList` is `removeIdProperties` mapped over the list. -/
theorem removeIdList_eq_map (xs : List JsVal) :
    removeIdList xs = xs.map removeIdProperties := by
  induction xs with
  | nil => rfl
  | cons x xs ih => simp [removeIdList, ih]

mutual

/-- No `$id` key survives `removeIdProperties`. -/
theorem noIdKeys_removeIdProperties (v : JsVal) :
    noIdKeys (removeIdProperties v) = true := by
  cases v with
  | arr xs =>
    simpa [removeIdProperties, noIdKeys] using noIdKeysList_removeIdList xs
  | obj fs =>
    simpa [removeIdProperties, noIdKeys] using noIdKeysFields_removeIdFields fs
  | null => rfl
  | bool b => rfl
  | num q => rfl
  | str s => rfl

/-- No `$id` key survives `removeIdList`. -/
theorem noIdKeysList_removeIdList (xs : List JsVal) :
    noIdKeysList (removeIdList xs) = true := by
  cases xs with
  | nil => rfl
  | cons x xs =>
    simp [removeIdList, noIdKeysList, noIdKeys_removeIdProperties x,
      noIdKeysList_removeIdList xs]

/-- No `$id` key survives `removeIdFields`. -/
theorem noIdKeysFields_removeIdFields (fs : List (String × JsVal)) :
    noIdKeysFields (removeIdFields fs) = true := by
  cases fs with
  | nil => rfl
  | cons kv fs =>
    obtain ⟨k, v⟩ := kv
    by_cases hk : k = "$id"
    · simp [removeIdFields, hk, noIdKeysFields_removeIdFields fs]
    · simp [removeIdFields, hk, noIdKeysFields,
        noIdKeys_removeIdProperties v, noIdKeysFields_removeIdFields fs]

end

mutual

/-- `removeIdProperties` is idempotent. -/
theorem removeIdProperties_idem (v : JsVal) :
    removeIdProperties (removeIdProperties v) = removeIdProperties v := by
  cases v with
  | arr xs => simp [removeIdProperties, removeIdList_idem xs]
  | obj fs => simp [removeIdProperties, removeIdFields_idem fs]
  | null => rfl
  | bool b => rfl
  | num q => rfl
  | str s => rfl

/-- `removeIdList` is idempotent. -/
theorem removeIdList_idem (xs : List JsVal) :
    removeIdList (removeIdList xs) = removeIdList xs := by
  cases xs with
  | nil => rfl
  | cons x xs =>
    simp [removeIdList, removeIdProperties_idem x, removeIdList_idem xs]

/-- `removeIdFields` is idempotent. -/
theorem removeIdFields_idem (fs : List (String × JsVal)) :
    removeIdFields (removeIdFields fs) = removeIdFields fs := by
  cases fs with
  | nil => rfl
  | cons kv fs =>
    obtain ⟨k, v⟩ := kv
    by_cases hk : k = "$id"
    · simp [removeIdFields, hk, removeIdFields_idem fs]
    · simp [removeIdFields, hk, removeIdProperties_idem v,
        removeIdFields_idem fs]

end

/-- Looking up a key other than `$id` after `removeIdFields` finds the
rebuilt value of the original field. -/
theorem lookupField_removeIdFields (fs : List (String × JsVal)) (k : String)
    (hk : k ≠ "$id") :
    lookupField (removeIdFields fs) k =
      (lookupField fs k).map removeIdProperties := by
  induction fs with
  | nil => rfl
  | cons kv fs ih =>
    obtain ⟨k1, v⟩ := kv
    by_cases h1 : k1 = "$id"
    · subst h1
      have hne : ¬("$id" = k) := fun h => hk h.symm
      rw [show removeIdFields (("$id", v) :: fs) = removeIdFields fs from
        by simp [removeIdFields]]
      rw [ih]
      simp only [lookupField]
      rw [List.find?_cons_of_neg _ (by simpa using hne)]
    · by_cases h2 : k1 = k
      · subst h2
        simp only [removeIdFields, if_neg h1, lookupField]
        rw [List.find?_cons_of_pos _ (by simp),
          List.find?_cons_of_pos _ (by simp)]
        rfl
      · simp only [removeIdFields, if_neg h1, lookupField]
        rw [List.find?_cons_of_neg _ (by simpa using h2),
          List.find?_cons_of_neg _ (by simpa using h2)]
        exact ih

/-- Paths that avoid the `$id` key are preserved by `removeIdProperties`,
pointing at the rebuilt subvalue. -/
theorem getPath_removeIdProperties (p : List PathStep) (v : JsVal)
    (hp : PathStep.key "$id" ∉ p) :
    getPath (removeIdProperties v) p =
      (getPath v p).map removeIdProperties := by
  induction p generalizing v with
  | nil => simp [getPath]
  | cons step p ih =>
    have hp' : PathStep.key "$id" ∉ p := fun h =>
      hp (List.mem_cons_of_mem _ h)
    cases step with
    | index i =>
      cases v with
      | arr xs =>
        simp only [removeIdProperties, getPath, removeIdList_eq_map,
          List.get?_map]
        cases hx : xs.get? i with
        | none => simp
        | some x => simp [ih x hp']
      | null => simp [removeIdProperties, getPath]
      | bool b => simp [removeIdProperties, getPath]
      | num q => simp [removeIdProperties, getPath]
      | str s => simp [removeIdProperties, getPath]
      | obj fs => simp [removeIdProperties, getPath]
    | key k =>
      have hk : k ≠ "$id" := fun h =>
        hp (by rw [h]; exact List.mem_cons_self _ _)
      cases v with
      | obj fs =>
        simp only [removeIdProperties, getPath]
        rw [lookupField_removeIdFields fs k hk]
        cases hx : lookupField fs k with
        | none => simp
        | some x => simp [ih x hp']
      | arr xs => simp [removeIdProperties, getPath]
      | null => simp [removeIdProperties, getPath]
      | bool b => simp [removeIdProperties, getPath]
      | num q => simp [removeIdProperties, getPath]
      | str s => simp [removeIdProperties, getPath]

/-- C9: `removeIdProperties` yields a structure with no `$id` key at any
depth, it is idempotent, every path avoiding `$id` keys is preserved (its
target being rebuilt recursively), and primitives — in particular every
leaf value — are returned unchanged. -/
theorem removeIdProperties_spec (v : JsVal) :
    noIdKeys (removeIdProperties v) = true ∧
    removeIdProperties (removeIdProperties v) = removeIdProperties v ∧
    (∀ p, PathStep.key "$id" ∉ p →
      getPath (removeIdProperties v) p =
        (getPath v p).map removeIdProperties) ∧
    (∀ w : JsVal, w.isLeaf = true → removeIdProperties w = w) :=
  ⟨noIdKeys_removeIdProperties v, removeIdProperties_idem v,
   fun p hp => getPath_removeIdProperties p v hp,
   fun w hw => by cases w <;> first | rfl | simp [JsVal.isLeaf] at hw⟩

/-- Witness for C9 on a fixture with `$id` keys at three depths: the result
has no `$id` keys, re-running changes nothing, and the `title` field is
preserved. -/
theorem removeIdProperties_spec_witness :
    noIdKeys (removeIdProperties exJsVal) = true ∧
    removeIdProperties (removeIdProperties exJsVal) =
      removeIdProperties exJsVal ∧
    getPath (removeIdProperties exJsVal) [PathStep.key "title"] =
      some (.str "T") := by
  obtain ⟨h1, h2, h3, -⟩ := removeIdProperties_spec exJsVal
  refine ⟨h1, h2, ?_⟩
  rw [h3 [PathStep.key "title"] (by decide)]
  rfl

end BookLibrary
